import Mathlib

/-!
Verification development for the Sentinel-2 mosaic-selection pipeline
(tile ingestion, greedy mosaic composition, pairwise-IEP area engine,
MILP mosaic selector).

The Python modules are embedded shallowly:

* geometry (shapely polygons) is embedded as an abstract type `G`
  together with the operation record `GeoOps` (intersection, difference,
  n-ary union via folding, area, emptiness test); concrete witnesses
  instantiate `G` with finite sets of unit cells (`Finset ℕ`), where
  `area` is the cardinality — every shapely operation used by the code
  is exact set algebra there;
* floats are embedded as `ℚ` (the code only ever compares and combines
  finitely many products/quotients of inputs, all exact here);
* Python `datetime` values are embedded as UTC timestamps in whole
  seconds (`ℤ`); `timedelta.days` is floor division by 86400, which is
  Python's documented normalization;
* dictionary fields that may be absent are `Option` fields, and
  `dict.get(k, d)` is `Option.getD`.
-/

namespace S2Mosaic

/-- Abstract interface to the geometry library (shapely) as used by the
area engine: binary intersection, difference, area, emptiness, union. -/
structure GeoOps (G : Type) where
  inter : G → G → G
  diff : G → G → G
  union : G → G → G
  emptyG : G
  area : G → ℚ
  isEmpty : G → Bool

/-- The concrete cell-set model of geometry: a polygon is the finite set
of unit cells it covers, area is the number of cells. -/
def cellOps : GeoOps (Finset ℕ) where
  inter := (· ∩ ·)
  diff := (· \ ·)
  union := (· ∪ ·)
  emptyG := ∅
  area s := (s.card : ℚ)
  isEmpty s := decide (s = ∅)

/-- `shapely.ops.unary_union` over a list of geometries, as a fold. -/
def unionAll {G : Type} (ops : GeoOps G) (l : List G) : G :=
  l.foldl ops.union ops.emptyG

/-- One image entry of `images_info` in `filter_high_overlap_images`
(2.2-calc-area-2a2.py): its footprint geometry, its name, and its
weight pair `(image area, cloud_coverage)` as built by the caller. -/
structure ImgItem (G : Type) where
  geom : G
  name : String
  weight : ℚ × ℚ
deriving DecidableEq

/-- `images_info[i]["area"]` of 2.2-calc-area-2a2.py lines 196-209:
the footprint clipped by the AOI when the AOI geometry is truthy
(nonempty), with area 0 for an empty intersection. -/
def clipArea {G : Type} (ops : GeoOps G) (aoi g : G) : ℚ :=
  let i := if ops.isEmpty aoi then g else ops.inter g aoi
  if ops.isEmpty i then 0 else ops.area i

/-- Outcome of examining one pair `(i, j)` in the pruning loop of
`filter_high_overlap_images`: keep both, drop `j` (continue scanning),
or drop `i` (break out of the inner loop). -/
inductive PairOutcome : Type
  | keepBoth : PairOutcome
  | dropJ : PairOutcome
  | dropI : PairOutcome
deriving DecidableEq

/-- The body of the pair loop of `filter_high_overlap_images`
(2.2-calc-area-2a2.py lines 220-282), as a pure function of the two
image entries: intersect the pair, clip by the AOI, compare the overlap
ratio against 0.9, and on high overlap decide by unique-to-AOI
contributions (threshold 0.05) with the cloud-coverage tie rule. -/
def pairDecision {G : Type} (ops : GeoOps G) (aoi : G) (x y : ImgItem G) :
    PairOutcome :=
  let p0 := ops.inter x.geom y.geom
  let p := if ops.isEmpty aoi then p0 else ops.inter p0 aoi
  if ops.isEmpty p then .keepBoth
  else
    let overlapArea := ops.area p
    let smaller := min (clipArea ops aoi x.geom) (clipArea ops aoi y.geom)
    if 0 < smaller then
      if 9/10 < overlapArea / smaller then
        let giAoi := ops.inter x.geom aoi
        let gjAoi := ops.inter y.geom aoi
        let aoiArea := ops.area aoi
        let ui := if 0 < aoiArea then ops.area (ops.diff giAoi gjAoi) / aoiArea else 0
        let uj := if 0 < aoiArea then ops.area (ops.diff gjAoi giAoi) / aoiArea else 0
        if 1/20 ≤ ui ∧ 1/20 ≤ uj then .keepBoth
        else if 1/20 ≤ ui then .dropJ
        else if 1/20 ≤ uj then .dropI
        else if x.weight.2 ≤ y.weight.2 then .dropJ else .dropI
      else .keepBoth
    else .keepBoth

/-- Inner loop of the pruning pass: scan image `x` against the images
after it.  Returns whether `x` survives and the list after it with the
images `x` eliminated removed; on `dropI` the scan stops (`break`) and
the remaining images are left untouched. -/
def scanPair {G : Type} (ops : GeoOps G) (aoi : G) (x : ImgItem G) :
    List (ImgItem G) → Bool × List (ImgItem G)
  | [] => (true, [])
  | y :: ys =>
    match pairDecision ops aoi x y with
    | .keepBoth =>
      let r := scanPair ops aoi x ys
      (r.1, y :: r.2)
    | .dropJ => scanPair ops aoi x ys
    | .dropI => (false, y :: ys)

/-- Fuel-indexed body of the outer pruning loop; the fuel only bounds
the recursion depth and is always at least the list length when called
through `prunePass`. -/
def pruneGo {G : Type} (ops : GeoOps G) (aoi : G) :
    ℕ → List (ImgItem G) → List (ImgItem G)
  | _, [] => []
  | 0, l => l
  | n + 1, x :: rest =>
    if (scanPair ops aoi x rest).1 then
      x :: pruneGo ops aoi n (scanPair ops aoi x rest).2
    else
      pruneGo ops aoi n (scanPair ops aoi x rest).2

/-- Outer loop of the pruning pass of `filter_high_overlap_images`:
each surviving image is scanned against the images after it; images
marked for removal are dropped, and a removed outer image stops its own
inner scan (`break`). -/
def prunePass {G : Type} (ops : GeoOps G) (aoi : G)
    (l : List (ImgItem G)) : List (ImgItem G) :=
  pruneGo ops aoi l.length l

/-- Rebuild the `images_info` list from the three parallel lists handed
to `filter_high_overlap_images`; like Python's `zip`, truncation is to
the shortest list. -/
def zipItems {G : Type} (geoms : List G) (names : List String)
    (weights : List (ℚ × ℚ)) : List (ImgItem G) :=
  (geoms.zip (names.zip weights)).map fun p => ⟨p.1, p.2.1, p.2.2⟩

/-- `filter_high_overlap_images` of 2.2-calc-area-2a2.py: pairwise
redundancy pruning over the image footprints of one mosaic group.
Groups with fewer than 3 geometries are returned unchanged. -/
def filter_high_overlap_images {G : Type} (ops : GeoOps G)
    (group_geometries : List G) (group_images : List String) (aoi : G)
    (image_weights : List (ℚ × ℚ)) :
    List G × List String × List (ℚ × ℚ) :=
  if group_geometries.length < 3 then
    (group_geometries, group_images, image_weights)
  else
    let kept := prunePass ops aoi (zipItems group_geometries group_images image_weights)
    (kept.map (·.geom), kept.map (·.name), kept.map (·.weight))

/-! ## The IEP area engine: `calculate_coverage_twotwo` (2.2-calc-area-2a2.py) -/

/-- A mosaic group as read from `optimization_parameters.json`:
its id and its ordered image (filename) list. -/
structure GroupIn where
  group_id : String
  images : List String
deriving DecidableEq

/-- A mosaic group after the area engine.  Every field the engine may
attach is an `Option`: `none` means the corresponding JSON key was not
added to the group dictionary. -/
structure GroupOut where
  group_id : String
  images : List String
  selected_by_overlap : Option Bool
  geometric_coverage : Option ℚ
  geometric_coverage_m2 : Option ℚ
  total_individual_area : Option ℚ
  total_pairwise_overlap : Option ℚ
  real_coverage_area : Option ℚ
  real_coverage_ratio : Option ℚ
  pie_coverage_area : Option ℚ
  pie_coverage_ratio : Option ℚ
  pairwise_intersections : Option (List ((ℕ × ℕ) × ℚ))
  avg_cloud_coverage : Option ℚ
deriving DecidableEq

/-- `image_metadata[img_name].get("cloud_coverage", 0)` where
`image_metadata = {img["filename"]: img for img in image_catalog}`
(a Python dict comprehension: the last entry with a given key wins),
with default `{}` for an unknown name and default `0` for the field. -/
def imageCloud (catalog : List (String × ℚ)) (nm : String) : ℚ :=
  (catalog.foldl (fun acc p => if p.1 = nm then some p.2 else acc) none).getD 0

/-- Geometry collection loop of `calculate_coverage_twotwo` (lines
335-356): look up each image's footprint, skipping failed lookups, and
pair each found footprint with its `(area, cloud_coverage)` weight. -/
def collectGeoms {G : Type} (ops : GeoOps G) (lookup : String → Option G)
    (catalog : List (String × ℚ)) (images : List String) :
    List (G × ℚ × ℚ) :=
  images.filterMap fun nm =>
    (lookup nm).map fun geom => (geom, ops.area geom, imageCloud catalog nm)

/-- AOI-clipped footprints (`aoi_geometries`, lines 389-394): intersect
each footprint with the AOI, dropping empty intersections. -/
def aoiClips {G : Type} (ops : GeoOps G) (aoi : G) (geoms : List G) : List G :=
  geoms.filterMap fun geom =>
    let i := ops.inter geom aoi
    if ops.isEmpty i then none else some i

/-- `itertools.combinations(range(n), 2)` in its iteration order. -/
def pairIndexes (n : ℕ) : List (ℕ × ℕ) :=
  ((List.range n).map fun i =>
    (((List.range n).filter fun j => i < j).map fun j => (i, j))).flatten

/-- Pairwise intersection records (lines 399-414): for each index pair
the area of the AOI-clipped intersection, empty ones skipped. -/
def pairwiseRecords {G : Type} (ops : GeoOps G) (aoi : G) (geoms : List G) :
    List ((ℕ × ℕ) × ℚ) :=
  (pairIndexes geoms.length).filterMap fun ij =>
    let p := ops.inter
      (ops.inter (geoms.getD ij.1 ops.emptyG) (geoms.getD ij.2 ops.emptyG)) aoi
    if ops.isEmpty p then none else some (ij, ops.area p)

/-- The weighted-cloud accumulation loop (lines 450-475): walk the
footprints in list order, count each AOI-clipped footprint only on its
not-yet-considered part, and weight that unique area by the image's
cloud coverage.  Returns the accumulated `weighted_cloud_coverage`. -/
def weightedCloud {G : Type} (ops : GeoOps G) (aoi : G)
    (geomWeights : List (G × ℚ × ℚ)) : ℚ :=
  (geomWeights.foldl
    (fun st p =>
      let aoi_geom := if ops.isEmpty aoi then p.1 else ops.inter p.1 aoi
      let unique :=
        match st.1 with
        | [] => aoi_geom
        | _ => ops.diff aoi_geom (unionAll ops st.1)
      (st.1 ++ [aoi_geom],
        st.2 + (if ops.isEmpty unique then 0 else ops.area unique) * p.2.2))
    (([] : List G), (0 : ℚ))).2

/-- One group of `calculate_coverage_twotwo` (lines 324-497), as a pure
function of the AOI, the footprint lookup (`find_and_get_image_geometry`
plus cache) and the image catalog.  Failed lookups are skipped; a group
with no footprint at all only gains `geometric_coverage = 0` and
`avg_cloud_coverage = 1`; otherwise the group is pruned (the `images`
key is rewritten only when the filtered name list is strictly shorter
than the original), the pairwise-IEP and real-union coverages are
computed, and the no-double-counting cloud average is attached. -/
def processGroup {G : Type} (ops : GeoOps G) (aoi : G)
    (lookup : String → Option G) (catalog : List (String × ℚ))
    (g : GroupIn) : GroupOut :=
  let collected := collectGeoms ops lookup catalog g.images
  let geoms0 := collected.map (·.1)
  let weights0 := collected.map (·.2)
  if geoms0.isEmpty then
    { group_id := g.group_id, images := g.images, selected_by_overlap := none,
      geometric_coverage := some 0, geometric_coverage_m2 := none,
      total_individual_area := none, total_pairwise_overlap := none,
      real_coverage_area := none, real_coverage_ratio := none,
      pie_coverage_area := none, pie_coverage_ratio := none,
      pairwise_intersections := none, avg_cloud_coverage := some 1 }
  else
    let fil :=
      if 2 ≤ geoms0.length then
        let f := filter_high_overlap_images ops geoms0 g.images aoi weights0
        if f.2.1.length < g.images.length then (f.1, f.2.1, f.2.2, true)
        else (geoms0, g.images, weights0, false)
      else (geoms0, g.images, weights0, false)
    let geoms := fil.1
    let imgs := fil.2.1
    let weights := fil.2.2.1
    let clips := aoiClips ops aoi geoms
    let tia := (clips.map ops.area).sum
    let pairRecs := pairwiseRecords ops aoi geoms
    let tpo := (pairRecs.map (·.2)).sum
    let realGeom := unionAll ops clips
    let realArea := if ops.isEmpty realGeom then 0 else ops.area realGeom
    let aoiArea := ops.area aoi
    let realRatio := if 0 < aoiArea then realArea / aoiArea else 0
    let pie := min (tia - tpo) aoiArea
    let covRatio := pie / aoiArea
    let weighted := weightedCloud ops aoi (geoms.zip weights)
    let acc0 :=
      if 0 < realArea then weighted / realArea
      else if weights.isEmpty then 0
      else (weights.map (·.2)).sum / (weights.length : ℚ)
    let acc := max 0 (min 1 acc0)
    { group_id := g.group_id, images := imgs,
      selected_by_overlap := if fil.2.2.2 then some true else none,
      geometric_coverage := some covRatio, geometric_coverage_m2 := some pie,
      total_individual_area := some tia, total_pairwise_overlap := some tpo,
      real_coverage_area := some realArea, real_coverage_ratio := some realRatio,
      pie_coverage_area := some pie, pie_coverage_ratio := some covRatio,
      pairwise_intersections := some pairRecs, avg_cloud_coverage := some acc }

/-- `calculate_coverage_twotwo` over the group list (the enclosing
`for` loop of lines 324-505): every group is processed and kept. -/
def calculate_coverage_twotwo {G : Type} (ops : GeoOps G) (aoi : G)
    (lookup : String → Option G) (catalog : List (String × ℚ))
    (groups : List GroupIn) : List GroupOut :=
  groups.map (processGroup ops aoi lookup catalog)

/-- A group that has gained no area-engine field yet. -/
def unenrichedGroup (g : GroupIn) : GroupOut :=
  { group_id := g.group_id, images := g.images, selected_by_overlap := none,
    geometric_coverage := none, geometric_coverage_m2 := none,
    total_individual_area := none, total_pairwise_overlap := none,
    real_coverage_area := none, real_coverage_ratio := none,
    pie_coverage_area := none, pie_coverage_ratio := none,
    pairwise_intersections := none, avg_cloud_coverage := none }

/-- The exception handler of `calculate_coverage_twotwo` (lines
499-505): on any error in a group's area computation, the group is kept
and gains exactly `geometric_coverage = 0.0`,
`geometric_coverage_m2 = 0.0` and `avg_cloud_coverage = 1.0`. -/
def errorFallbackFields (g : GroupOut) : GroupOut :=
  { g with geometric_coverage := some 0, geometric_coverage_m2 := some 0,
           avg_cloud_coverage := some 1 }

/-! ## The MILP model of `solve_mosaic_selection_milp` (3-CPLEX.py)

The CPLEX model is embedded as the pair (feasible set, objective) it
defines over the binary selection vector `y`.  The auxiliary pair
variables `o_{j,k}` are linked by `y_j + y_k - 1 ≤ o ≤ min(y_j, y_k)`,
which forces `o_{j,k} = y_j ∧ y_k` in every feasible point, so they are
substituted away.  Decision variables are keyed by `group_id` in the
source; the embedding indexes groups by list position, which agrees
with the source whenever the `group_id`s are pairwise distinct. -/

/-- One record of `image_catalog` as used by the selector. -/
structure CatalogImg where
  filename : String
  cloud_coverage : ℚ
deriving DecidableEq

/-- One record of `mosaic_groups` as used by the selector (fields the
model reads; absent JSON keys are `none`). -/
structure MGroup where
  group_id : String
  images : List String
  quality_factor : Option ℚ
  geometric_coverage : Option ℚ
  geometric_coverage_m2 : Option ℚ
deriving DecidableEq

/-- `calculate_group_coverage` (3-CPLEX.py lines 30-43): the
precomputed `geometric_coverage`, defaulting to 0.0 when absent. -/
def calculate_group_coverage (g : MGroup) : ℚ :=
  g.geometric_coverage.getD 0

/-- `group_cloud_coverages[group_id]` (lines 100-107): the maximum
`cloud_coverage` over every catalog entry matching an image of the
group, 0 when no entry matches. -/
def groupMaxCloud (catalog : List CatalogImg) (g : MGroup) : ℚ :=
  let cs := (g.images.map fun nm =>
    (catalog.filter fun im => im.filename = nm).map (·.cloud_coverage)).flatten
  match cs with
  | [] => 0
  | c :: rest => rest.foldl max c

/-- `group_qualities[group_id]` (line 109): `quality_factor` with
default 1.0. -/
def groupQuality (g : MGroup) : ℚ := g.quality_factor.getD 1

/-- The quality factor actually used by the objective: the generator
expression at lines 140-143 reads `group_qualities[group_id]` where
`group_id` is the stale loop variable of the metrics loop (lines
95-118), i.e. the id of the *last* group in the list, for every term. -/
def lastQuality (gs : List MGroup) : ℚ :=
  match gs.getLast? with
  | some g => groupQuality g
  | none => 1

/-- `alpha` (line 129): the always-on penalty per selected group. -/
def milpAlpha : ℚ := 2/5

/-- `gamma` (line 130): the cloud-coverage penalty weight. -/
def milpGamma : ℚ := 4/5

/-- 0-1 indicator of a binary decision variable. -/
def indicator (b : Bool) : ℚ := if b then 1 else 0

/-- `total_coverage_quality` (lines 140-143):
`Σ_j A_j · Q_stale · y_j` (see `lastQuality`). -/
def total_coverage_quality (gs : List MGroup) (y : Fin gs.length → Bool) : ℚ :=
  ((List.finRange gs.length).map fun j =>
    calculate_group_coverage (gs.get j) * lastQuality gs * indicator (y j)).sum

/-- `penalty_num_groups` (line 145): `alpha · Σ_j y_j`. -/
def penalty_num_groups (gs : List MGroup) (y : Fin gs.length → Bool) : ℚ :=
  milpAlpha * ((List.finRange gs.length).map fun j => indicator (y j)).sum

/-- `penalty_cloud_coverage` (lines 147-151): `gamma · Σ_j N_j · y_j`. -/
def penalty_cloud_coverage (catalog : List CatalogImg) (gs : List MGroup)
    (y : Fin gs.length → Bool) : ℚ :=
  milpGamma * ((List.finRange gs.length).map fun j =>
    groupMaxCloud catalog (gs.get j) * indicator (y j)).sum

/-- The maximized objective (line 153). -/
def milpObjective (catalog : List CatalogImg) (gs : List MGroup)
    (y : Fin gs.length → Bool) : ℚ :=
  total_coverage_quality gs y - penalty_num_groups gs y
    - penalty_cloud_coverage catalog gs y

/-- Constraint 1 (lines 156-162): a group whose max cloud coverage
exceeds 0.40 is fixed to `y = 0`. -/
def cloudConstraintsOK (catalog : List CatalogImg) (gs : List MGroup)
    (y : Fin gs.length → Bool) : Bool :=
  (List.finRange gs.length).all fun j =>
    if (2/5 : ℚ) < groupMaxCloud catalog (gs.get j) then !(y j) else true

/-- `image_to_groups[nm]` (lines 168-172): the group positions listing
image `nm`, with multiplicity (one entry per occurrence in `images`). -/
def groupsListedFor (gs : List MGroup) (nm : String) : List (Fin gs.length) :=
  ((List.finRange gs.length).map fun j =>
    (((gs.get j).images.filter fun s => s = nm).map fun _ => j)).flatten

/-- Every image filename occurring in some group, each once. -/
def allImageNames (gs : List MGroup) : List String :=
  ((gs.map (·.images)).flatten).dedup

/-- Constraint 2 (lines 174-180): for every image listed by more than
one group entry, at most one listing group is selected. -/
def exclusivityOK (gs : List MGroup) (y : Fin gs.length → Bool) : Bool :=
  (allImageNames gs).all fun nm =>
    let ps := groupsListedFor gs nm
    if 1 < ps.length then decide ((ps.filter fun j => y j).length ≤ 1) else true

/-- `aoi_area` estimation (lines 218-224): `geometric_coverage_m2 /
geometric_coverage` of the first group carrying both keys, else 1.0. -/
def estimateAoiArea : List MGroup → ℚ
  | [] => 1
  | g :: rest =>
    match g.geometric_coverage_m2, g.geometric_coverage with
    | some m2, some cov => m2 / cov
    | _, _ => estimateAoiArea rest

/-- Number of distinct filenames (`len(set(...))`). -/
def distinctCount (l : List String) : ℕ := l.dedup.length

/-- `len(set(l1) & set(l2))`. -/
def sharedCount (l1 l2 : List String) : ℕ :=
  (l1.dedup.filter fun nm => l2.contains nm).length

/-- `len(set(l1) | set(l2))`. -/
def unionCount (l1 l2 : List String) : ℕ := (l1 ++ l2).dedup.length

/-- `group_intersections[(g1, g2)]` (lines 228-280): 0 without shared
images; with both `geometric_coverage_m2` present, the shared-image
ratio times the smaller `m2` coverage, normalized by the estimated AOI
area (replaced by 1.0 when the estimate is below 0.001); otherwise the
conservative coverage-based estimate with factor 0.5. -/
def pairIntersectionValue (aoiEst : ℚ) (g1 g2 : MGroup) : ℚ :=
  let shared := sharedCount g1.images g2.images
  if shared = 0 then 0
  else
    match g1.geometric_coverage_m2, g2.geometric_coverage_m2 with
    | some m1, some m2 =>
      let sharedRatio := (shared : ℚ) /
        ((min (distinctCount g1.images) (distinctCount g2.images) : ℕ) : ℚ)
      let interArea := min m1 m2 * sharedRatio
      let aoiEff := if aoiEst < 1/1000 then 1 else aoiEst
      interArea / aoiEff
    | _, _ =>
      min (calculate_group_coverage g1) (calculate_group_coverage g2) *
        ((shared : ℚ) / ((unionCount g1.images g2.images : ℕ) : ℚ)) * (1/2)

/-- The coverage expression of constraint 3 (lines 285-293):
`Σ_j A_j·y_j − Σ_{j<k} I_{j,k}·(y_j ∧ y_k)`, the subtraction applied
only to pairs with positive estimated intersection, and the pair
variable `o_{j,k}` replaced by its forced value `y_j ∧ y_k`. -/
def milpCoverageExpr (gs : List MGroup) (y : Fin gs.length → Bool) : ℚ :=
  let aoiEst := estimateAoiArea gs
  ((List.finRange gs.length).map fun j =>
    calculate_group_coverage (gs.get j) * indicator (y j)).sum -
  ((pairIndexes gs.length).map fun jk =>
    if h : jk.1 < gs.length ∧ jk.2 < gs.length then
      let v := pairIntersectionValue aoiEst (gs.get ⟨jk.1, h.1⟩) (gs.get ⟨jk.2, h.2⟩)
      if 0 < v then v * indicator (y ⟨jk.1, h.1⟩ && y ⟨jk.2, h.2⟩) else 0
    else 0).sum

/-- `min_total_coverage` (line 184). -/
def minTotalCoverage : ℚ := 17/20

/-- Feasibility of a selection vector in the CPLEX model: the cloud
vetoes, the exclusivity constraints and the minimum-coverage constraint
(with pair variables at their forced values). -/
def milpFeasible (catalog : List CatalogImg) (gs : List MGroup)
    (y : Fin gs.length → Bool) : Bool :=
  cloudConstraintsOK catalog gs y && exclusivityOK gs y &&
    decide (minTotalCoverage ≤ milpCoverageExpr gs y)

/-- Number of selected groups. -/
def numSelected (gs : List MGroup) (y : Fin gs.length → Bool) : ℕ :=
  (List.finRange gs.length).countP fun j => y j

/-! ## The greedy mosaic composer (2-compatibility-greedy.py)

Tile footprints in this module are the axis-aligned boxes built by
`shapely.geometry.box` from raster bounds; the pyproj reprojection to
WGS84, the filesystem and the cloud-probability probe
(`get_cloud_cover_in_geom`, which returns a value in every failure
case) are leaf capabilities collected in `GeoCtx`.  The embedding
restricts the reprojection capability to box-to-box maps, which is
exact for the identity reprojection used by all concrete instances. -/

/-- The `{left, bottom, right, top}` bounds dictionary. -/
structure BBoxQ where
  left : ℚ
  bottom : ℚ
  right : ℚ
  top : ℚ
deriving DecidableEq

/-- `shapely` `intersects` on proper boxes (touching counts). -/
def boxIntersects (a b : BBoxQ) : Bool :=
  decide (max a.left b.left ≤ min a.right b.right) &&
    decide (max a.bottom b.bottom ≤ min a.top b.top)

/-- Box intersection (only consumed when `boxIntersects` holds). -/
def boxInter (a b : BBoxQ) : BBoxQ :=
  ⟨max a.left b.left, max a.bottom b.bottom, min a.right b.right,
    min a.top b.top⟩

/-- Area of a proper box; degenerate boxes get area 0. -/
def boxArea (a : BBoxQ) : ℚ :=
  max 0 (a.right - a.left) * max 0 (a.top - a.bottom)

/-- A tile metadata record as consumed by the composer; absent or null
dictionary entries are `none`.  The Python key `class` is the field
`cls`, dates are UTC timestamps in seconds. -/
structure ImgMeta where
  filename : String
  date : Option ℤ
  orbit : Option ℤ
  bounds : Option BBoxQ
  crs : Option String
  cloud_coverage : Option ℚ
  valid_pixels_percentage : Option ℚ
  geographic_coverage : Option ℚ
  cls : Option String
  cloud_mask_path : Option String
deriving DecidableEq

/-- Leaf capabilities of the composer: CRS parsing success, the
reprojection of a box to WGS84, file existence, and the cloud probe
(`get_cloud_cover_in_geom`: total, it returns 1.0 on its internal
failure paths). -/
structure GeoCtx where
  crsOk : String → Bool
  toWGS84 : String → BBoxQ → BBoxQ
  pathExists : String → Bool
  cloudProbe : String → BBoxQ → ℚ

/-- Which of the two tiles is better in the overlap region. -/
inductive Side : Type
  | base : Side
  | other : Side
deriving DecidableEq

/-- The `overlap_details` dictionary (all keys are always set by the
time the record is returned). -/
structure OverlapDetails where
  overlap_area : ℚ
  base_area : ℚ
  other_area : ℚ
  overlap_ratio_base : ℚ
  overlap_ratio_other : ℚ
  cloud_overlap_base : ℚ
  cloud_overlap_other : ℚ
  better_img_in_overlap : Option Side
deriving DecidableEq

/-- `abs((base_date - other_date).days)` (line 93): Python's
`timedelta.days` is the floor of the signed difference in days, so the
absolute value is taken after flooring. -/
def daysDiff (b o : ℤ) : ℤ := |Int.fdiv (b - o) 86400|

/-- The temporal gate of `calculate_compatibility_mosaics` (lines
72-95): passes only when both dates are present and the day difference
is within `max_days`. -/
def temporalOK (b o : Option ℤ) (max_days : ℤ) : Bool :=
  match b, o with
  | some b, some o => decide (daysDiff b o ≤ max_days)
  | _, _ => false

/-- One tile's cloud-in-overlap value (lines 190-196): the probe runs
only when the cloud-mask path is present and the file exists; the
value stays at the 1.0 initialization otherwise. -/
def probeValue (ctx : GeoCtx) (path : Option String) (r : BBoxQ) : ℚ :=
  match path with
  | some p => if ctx.pathExists p then ctx.cloudProbe p r else 1
  | none => 1

/-- Cloud-in-overlap computation (lines 186-210): inside a
positive-area overlap each tile is probed when its cloud-mask path is
present and exists (default 1.0 otherwise) and the better tile is
`base` exactly when its value is ≤ the other's; with no overlap area
both values stay 1.0 and no better tile is designated. -/
def cloudOverlapInfo (ctx : GeoCtx) (base_img other_img : ImgMeta)
    (overlapGeom : Option BBoxQ) : ℚ × ℚ × Option Side :=
  match overlapGeom with
  | some r =>
    if 0 < boxArea r then
      let cb := probeValue ctx base_img.cloud_mask_path r
      let co := probeValue ctx other_img.cloud_mask_path r
      (cb, co, some (if cb ≤ co then Side.base else Side.other))
    else (1, 1, none)
  | none => (1, 1, none)

/-- Overlap quality factor (lines 223-229): the better tile's
cloud-in-overlap against its valid-pixel share, or the mean of the
global qualities when no better tile was designated. -/
def qualityOverlap (better : Option Side) (cb co qb qo vb vo : ℚ) : ℚ :=
  match better with
  | some Side.base => (1 - cb) * vb
  | some Side.other => (1 - co) * vo
  | none => (qb + qo) / 2

/-- `OVERLAP_QUALITY_WEIGHT` (greedy_utils/configuration.py). -/
def OVERLAP_QUALITY_WEIGHT : ℚ := 3/10

/-- The record returned by `calculate_compatibility_mosaics`. -/
structure CompatResult where
  image : ImgMeta
  days_diff : ℤ
  estimated_coverage_after_add : ℚ
  refined_quality_factor : ℚ
  effectiveness_score : ℚ
  orbit_match : Bool
  overlap_details : OverlapDetails
deriving DecidableEq

/-- `calculate_compatibility_mosaics` (2-compatibility-greedy.py lines
38-253): temporal gate, orbit bonus, bounds/CRS validation, overlap
geometry in WGS84, cloud-in-overlap, refined quality, marginal coverage
estimate and effectiveness score; `none` on any rejection. -/
def calculate_compatibility_mosaics (ctx : GeoCtx)
    (base_img other_img : ImgMeta) (max_days : ℤ) : Option CompatResult :=
  match base_img.date, other_img.date with
  | some bd, some od =>
    if max_days < daysDiff bd od then none
    else
      let orbit_match := base_img.orbit.isSome && decide (base_img.orbit = other_img.orbit)
      let orbit_bonus : ℚ := if orbit_match then 1/20 else 0
      match base_img.bounds, other_img.bounds with
      | some bb, some ob =>
        match base_img.crs, other_img.crs with
        | some bcrs, some ocrs =>
          if ctx.crsOk bcrs && ctx.crsOk ocrs then
            let basePoly := ctx.toWGS84 bcrs bb
            let otherPoly := ctx.toWGS84 ocrs ob
            let og : Option BBoxQ :=
              if boxIntersects basePoly otherPoly then
                some (boxInter basePoly otherPoly)
              else none
            let oa := match og with | some r => boxArea r | none => 0
            let ba := boxArea basePoly
            let na := boxArea otherPoly
            let orb := match og with
              | some _ => if 0 < ba then oa / ba else 0
              | none => 0
            let oro := match og with
              | some _ => if 0 < na then oa / na else 0
              | none => 0
            let ci := cloudOverlapInfo ctx base_img other_img og
            let vb := base_img.valid_pixels_percentage.getD 0
            let vo := other_img.valid_pixels_percentage.getD 0
            let qb := (1 - base_img.cloud_coverage.getD 1) * vb
            let qo := (1 - other_img.cloud_coverage.getD 1) * vo
            let qfo := qualityOverlap ci.2.2 ci.1 ci.2.1 qb qo vb vo
            let refined := (1 - OVERLAP_QUALITY_WEIGHT) * ((qb + qo) / 2) +
              OVERLAP_QUALITY_WEIGHT * qfo
            let uncovered := max 0 (1 - base_img.geographic_coverage.getD 0)
            let ofh : ℚ := if other_img.cls = some "central" then 2/5 else 1/5
            let added := min uncovered
              (other_img.geographic_coverage.getD 0 * (1 - ofh))
            let newCov := min 1 (base_img.geographic_coverage.getD 0 + added)
            some { image := other_img, days_diff := daysDiff bd od,
                   estimated_coverage_after_add := newCov,
                   refined_quality_factor := refined,
                   effectiveness_score := added * refined + orbit_bonus,
                   orbit_match := orbit_match,
                   overlap_details := {
                     overlap_area := oa, base_area := ba, other_area := na,
                     overlap_ratio_base := orb, overlap_ratio_other := oro,
                     cloud_overlap_base := ci.1,
                     cloud_overlap_other := ci.2.1,
                     better_img_in_overlap := ci.2.2 } }
          else none
        | _, _ => none
      | _, _ => none
  | _, _ => none

/-- Stable insertion of `x` after every already-placed element `y`
with `le y x`; the building block of `stableSort`. -/
def insertSorted {A : Type} (le : A → A → Bool) (x : A) : List A → List A
  | [] => [x]
  | y :: ys => if le y x then y :: insertSorted le x ys else x :: y :: ys

/-- Stable sort by a total boolean preorder `le` (ties keep the input
order), embedding Python's stable `sorted`; any two stable sorts of the
same total preorder agree, so this is the semantics of `sorted(...,
key=..., reverse=True)` when `le` is the reversed key comparison. -/
def stableSort {A : Type} (le : A → A → Bool) (l : List A) : List A :=
  l.foldl (fun acc x => insertSorted le x acc) []

/-- A candidate mosaic group under construction. -/
structure MosaicGroup where
  base_image : ImgMeta
  complementary_images : List ImgMeta
  estimated_coverage : ℚ
  avg_quality_factor : ℚ
  start_date : Option ℤ
  end_date : Option ℤ
  overlap_details : List OverlapDetails
deriving DecidableEq

/-- The candidate ordering key `geographic_coverage * (1 -
cloud_coverage)` with the source's dictionary defaults. -/
def sortKey (x : ImgMeta) : ℚ :=
  x.geographic_coverage.getD 0 * (1 - x.cloud_coverage.getD 1)

/-- Date-range update on adding a candidate (lines 351-363): only a
present candidate date against present (truthy) range endpoints. -/
def updateDates (mg : MosaicGroup) (cd : Option ℤ) : MosaicGroup :=
  match cd with
  | none => mg
  | some d =>
    let mg1 := match mg.start_date with
      | some s => if d < s then { mg with start_date := some d } else mg
      | none => mg
    match mg1.end_date with
    | some e => if e < d then { mg1 with end_date := some d } else mg1
    | none => mg1

/-- The iterative greedy extension loop shared by both passes (lines
339-372 and 420-453): each compatible candidate is appended, the
estimates are overwritten with the compatibility record's values, the
date range is extended, and the synthetic base has its
`geographic_coverage` replaced by the new estimate. -/
def growMosaic (ctx : GeoCtx) (max_days : ℤ) (init : MosaicGroup)
    (base0 : ImgMeta) (candidates : List ImgMeta) : MosaicGroup :=
  (candidates.foldl
    (fun st cand =>
      match calculate_compatibility_mosaics ctx st.2 cand max_days with
      | none => st
      | some comp =>
        let mg := st.1
        let mg := { mg with
          complementary_images := mg.complementary_images ++ [comp.image],
          estimated_coverage := comp.estimated_coverage_after_add,
          avg_quality_factor := comp.refined_quality_factor }
        let mg := updateDates mg cand.date
        let mg := { mg with
          overlap_details := mg.overlap_details ++ [comp.overlap_details] }
        (mg, { st.2 with
          geographic_coverage := some comp.estimated_coverage_after_add }))
    (init, base0)).1

/-- The fresh mosaic group seeded by one base tile (lines 315-323 and
409-417). -/
def initGroup (c : ImgMeta) : MosaicGroup :=
  { base_image := c, complementary_images := [],
    estimated_coverage := c.geographic_coverage.getD 0,
    avg_quality_factor :=
      (1 - c.cloud_coverage.getD 1) * c.valid_pixels_percentage.getD 0,
    start_date := c.date, end_date := c.date, overlap_details := [] }

/-- Pass 1 of `heuristica_gulosa` (lines 307-377): one central-seeded
group per unprocessed central; candidates are all other accepted tiles
in stable descending `sortKey` order; the group is kept (and the
central marked processed) only when at least one image was added. -/
def passACentral (ctx : GeoCtx) (centrals complements : List ImgMeta)
    (max_days : ℤ) : List MosaicGroup :=
  let all_accepted := centrals ++ complements
  (centrals.foldl
    (fun st c =>
      if st.1.contains c.filename then st
      else
        let cands := stableSort (fun a b => decide (sortKey b ≤ sortKey a))
          (all_accepted.filter fun i => !(decide (i.filename = c.filename)))
        let mg := growMosaic ctx max_days (initGroup c) c cands
        if mg.complementary_images.isEmpty then st
        else (st.1 ++ [c.filename], st.2 ++ [mg]))
    (([] : List String), ([] : List MosaicGroup))).2

/-- The calendar-day key of a UTC timestamp (`strftime('%Y-%m-%d')`). -/
def dayKey (d : ℤ) : ℤ := Int.fdiv d 86400

/-- `complement_groups` (lines 384-394): bucket the complements by
calendar day, keys in first-appearance order, skipping dateless
tiles. -/
def bucketComplements (complements : List ImgMeta) :
    List (ℤ × List ImgMeta) :=
  complements.foldl
    (fun acc img =>
      match img.date with
      | none => acc
      | some d =>
        let k := dayKey d
        if acc.any fun p => p.1 = k then
          acc.map fun p => if p.1 = k then (p.1, p.2 ++ [img]) else p
        else acc ++ [(k, [img])])
    []

/-- Pass 2 of `heuristica_gulosa` (lines 396-457): per day bucket with
at least two complements, seed with the best one and extend with the
rest; keep only groups that added an image. -/
def passBComplement (ctx : GeoCtx) (complements : List ImgMeta)
    (max_days : ℤ) : List MosaicGroup :=
  (bucketComplements complements).foldl
    (fun out p =>
      if p.2.length < 2 then out
      else
        match stableSort (fun a b => decide (sortKey b ≤ sortKey a)) p.2 with
        | [] => out
        | b :: rest =>
          let mg := growMosaic ctx max_days (initGroup b) b rest
          if mg.complementary_images.isEmpty then out else out ++ [mg])
    []

/-- Final ordering key (line 460): the pair
`(estimated_coverage, avg_quality_factor)` compared lexicographically
like a Python tuple. -/
def mosaicPairLe (p q : ℚ × ℚ) : Bool :=
  decide (p.1 < q.1) || (decide (p.1 = q.1) && decide (p.2 ≤ q.2))

/-- `heuristica_gulosa` (lines 255-461): both passes, then the stable
descending sort by `(estimated_coverage, avg_quality_factor)`. -/
def heuristica_gulosa (ctx : GeoCtx) (centrals complements : List ImgMeta)
    (max_days : ℤ) : List MosaicGroup :=
  stableSort
    (fun a b => mosaicPairLe (b.estimated_coverage, b.avg_quality_factor)
      (a.estimated_coverage, a.avg_quality_factor))
    (passACentral ctx centrals complements max_days ++
      passBComplement ctx complements max_days)

/-! ## Tile ingestion metrics (greedy_utils/image_processing.py) -/

/-- The metrics record filled by `calculate_coverage_metrics`. -/
structure CoverageMetrics where
  geographic_coverage : ℚ
  valid_pixels_percentage : ℚ
  effective_coverage : ℚ
deriving DecidableEq

/-- The metric computation of `calculate_coverage_metrics`
(greedy_utils/image_processing.py lines 52-70) on an opened raster:
the AOI and the raster-bounds polygon are cell sets in the raster CRS,
`aoi_area_wgs84` is the caller-provided denominator, and `band` is
band 1 as read with `masked=True` — one entry per raster cell over the
whole grid, `none` for a cell masked as nodata. -/
def calculate_coverage_metrics (aoi imgPoly : Finset ℕ) (aoiAreaWGS : ℚ)
    (band : List (Option ℚ)) : CoverageMetrics :=
  let interArea : ℚ := ((aoi ∩ imgPoly).card : ℚ)
  let geo := min 1 (interArea / aoiAreaWGS)
  let valid := band.countP (·.isSome)
  let vp := if 0 < band.length then (valid : ℚ) / (band.length : ℚ) else 0
  { geographic_coverage := geo, valid_pixels_percentage := vp,
    effective_coverage := geo * vp }

/-- Modelled from the spec: `valid_pixels_percentage = count(valid
band-1 samples > 0 within AOI-masked region) / count(cells in
AOI-masked region)` — the spec's normalized definition, stated over the
same raster band together with the AOI membership of each cell, for
comparison with the implementation. -/
def claimedValidPixels (band : List (Option ℚ)) (aoiMask : List Bool) : ℚ :=
  let cells := (band.zip aoiMask).filter fun p => p.2
  let good := cells.countP fun p =>
    match p.1 with
    | some v => decide (0 < v)
    | none => false
  (good : ℚ) / (cells.length : ℚ)

/-! ## Concrete instances used by the claim theorems -/

instance : Inhabited ImgMeta :=
  ⟨⟨"", none, none, none, none, none, none, none, none, none⟩⟩

instance : Inhabited MosaicGroup :=
  ⟨⟨default, [], 0, 0, none, none, []⟩⟩

/-- C1: AOI of 13 cells; four footprints sharing a 9-cell core, each
with one private cell, so every pair overlaps exactly 90% of the
smaller footprint (not above the 0.9 pruning threshold). -/
def c1aoi : Finset ℕ := Finset.range 13

def c1core : Finset ℕ := Finset.range 9

def c1lookup : String → Option (Finset ℕ) := fun nm =>
  if nm = "a" then some (Finset.range 10)
  else if nm = "b" then some (insert 10 c1core)
  else if nm = "c" then some (insert 11 c1core)
  else if nm = "d" then some (insert 12 c1core)
  else none

def c1catalog : List (String × ℚ) := [("a", 0), ("b", 0), ("c", 0), ("d", 0)]

def c1out : GroupOut :=
  processGroup cellOps c1aoi c1lookup c1catalog ⟨"g1", ["a", "b", "c", "d"]⟩

/-- C2: seven single-image mosaics over pairwise distinct tiles. -/
def c2catalog : List CatalogImg :=
  [⟨"a", 0⟩, ⟨"b", 0⟩, ⟨"c", 0⟩, ⟨"d", 0⟩, ⟨"e", 0⟩, ⟨"f", 0⟩, ⟨"g", 0⟩]

def c2group (id nm : String) : MGroup := ⟨id, [nm], none, some (9/10), none⟩

def c2groups : List MGroup :=
  [c2group "m1" "a", c2group "m2" "b", c2group "m3" "c", c2group "m4" "d",
   c2group "m5" "e", c2group "m6" "f", c2group "m7" "g"]

def c2yAll : Fin c2groups.length → Bool := fun _ => true

/-- C3: two mosaics with different quality factors and clouds. -/
def c3catalog : List CatalogImg := [⟨"a", 1/10⟩, ⟨"b", 0⟩]

def c3groups : List MGroup :=
  [⟨"m1", ["a"], some (1/2), some 1, none⟩,
   ⟨"m2", ["b"], some 1, some 0, none⟩]

def c3y : Fin c3groups.length → Bool := fun _ => true

/-- C4: a two-image mosaic with identical footprints and clouds
0.1 and 0.3. -/
def c4aoi : Finset ℕ := Finset.range 4

def c4lookup : String → Option (Finset ℕ) := fun nm =>
  if nm = "a" ∨ nm = "b" then some (Finset.range 4) else none

def c4catalog : List (String × ℚ) := [("a", 1/10), ("b", 3/10)]

def c4out : GroupOut :=
  processGroup cellOps c4aoi c4lookup c4catalog ⟨"g", ["a", "b"]⟩

/-- The identity geo-context: every CRS parses, reprojection is the
identity, no cloud-mask file exists. -/
def idCtx : GeoCtx := ⟨fun _ => true, fun _ b => b, fun _ => false, fun _ _ => 1⟩

/-- C5: two compatible central tiles, no complements anywhere. -/
def c5tileA : ImgMeta :=
  ⟨"A", some 0, some 1, some ⟨0, 0, 10, 10⟩, some "EPSG:4326", some 0, some 1,
    some (1/2), some "central", none⟩

def c5tileB : ImgMeta :=
  ⟨"B", some 0, some 1, some ⟨5, 0, 15, 10⟩, some "EPSG:4326", some 0, some 1,
    some (1/2), some "central", none⟩

def c5result : List MosaicGroup := heuristica_gulosa idCtx [c5tileA, c5tileB] [] 5

def c5g0 : MosaicGroup := c5result.headI

/-- C6: a two-cell raster, cell 0 valid (value 5) and inside the AOI,
cell 1 nodata-masked and outside the AOI. -/
def c6band : List (Option ℚ) := [some 5, none]

def c6metrics : CoverageMetrics :=
  calculate_coverage_metrics (Finset.range 1) (Finset.range 2) 1 c6band

/-- C8: overlapping tiles without cloud-mask paths (probe never
attempted, both cloud-in-overlap values keep the 1.0 default). -/
def c8base : ImgMeta :=
  ⟨"P", some 0, some 1, some ⟨0, 0, 10, 10⟩, some "EPSG:4326", some 0, some 1,
    some (1/2), some "central", none⟩

def c8other : ImgMeta :=
  ⟨"Q", some 0, some 1, some ⟨5, 0, 15, 10⟩, some "EPSG:4326", some 0, some 1,
    some (1/2), some "central", none⟩

/-- C8 tie case: both probes succeed and return the same value. -/
def c8ctxTie : GeoCtx := ⟨fun _ => true, fun _ b => b, fun _ => true, fun _ _ => 1/2⟩

def c8baseTie : ImgMeta := { c8base with cloud_mask_path := some "p1" }

def c8otherTie : ImgMeta := { c8other with cloud_mask_path := some "p2" }

/-- C9: two otherwise fully compatible tiles 22 hours apart
(`base` at 1970-01-01T00:00:00Z, `other` at 1970-01-01T22:00:00Z). -/
def c9base : ImgMeta := c8base

def c9other : ImgMeta := { c8other with date := some 79200 }

/-! ## Supporting lemmas -/

theorem scanPair_snd_sublist {G : Type} (ops : GeoOps G) (aoi : G)
    (x : ImgItem G) (l : List (ImgItem G)) :
    (scanPair ops aoi x l).2.Sublist l := by
  induction l with
  | nil => simp [scanPair]
  | cons y ys ih =>
    simp only [scanPair]
    cases pairDecision ops aoi x y with
    | keepBoth => exact ih.cons₂ y
    | dropJ => exact ih.cons y
    | dropI => exact List.Sublist.refl _

theorem scanPair_true_keepBoth {G : Type} (ops : GeoOps G) (aoi : G)
    (x : ImgItem G) (l : List (ImgItem G))
    (h : (scanPair ops aoi x l).1 = true) :
    ∀ y ∈ (scanPair ops aoi x l).2, pairDecision ops aoi x y = .keepBoth := by
  induction l with
  | nil => simp [scanPair]
  | cons y ys ih =>
    simp only [scanPair] at h ⊢
    cases hd : pairDecision ops aoi x y with
    | keepBoth =>
      simp only [hd] at h ⊢
      intro z hz
      rcases List.mem_cons.mp hz with hz | hz
      · subst hz; exact hd
      · exact ih h z hz
    | dropJ =>
      simp only [hd] at h ⊢
      exact ih h
    | dropI => simp [hd] at h

theorem scanPair_of_keepBoth {G : Type} (ops : GeoOps G) (aoi : G)
    (x : ImgItem G) (l : List (ImgItem G))
    (h : ∀ y ∈ l, pairDecision ops aoi x y = .keepBoth) :
    scanPair ops aoi x l = (true, l) := by
  induction l with
  | nil => simp [scanPair]
  | cons y ys ih =>
    have hy : pairDecision ops aoi x y = .keepBoth := h y (List.mem_cons_self y ys)
    have hys : scanPair ops aoi x ys = (true, ys) :=
      ih fun z hz => h z (List.mem_cons_of_mem y hz)
    simp [scanPair, hy, hys]

theorem pruneGo_congr {G : Type} (ops : GeoOps G) (aoi : G) :
    ∀ (n m : ℕ) (l : List (ImgItem G)), l.length ≤ n → l.length ≤ m →
      pruneGo ops aoi n l = pruneGo ops aoi m l := by
  intro n
  induction n with
  | zero =>
    intro m l hn _
    rw [List.length_eq_zero.mp (Nat.le_zero.mp hn)]
    cases m <;> rfl
  | succ n ih =>
    intro m l hn hm
    cases l with
    | nil => cases m <;> rfl
    | cons x rest =>
      cases m with
      | zero => simp at hm
      | succ m =>
        have hsub := (scanPair_snd_sublist ops aoi x rest).length_le
        simp only [List.length_cons] at hn hm
        simp only [pruneGo]
        rw [ih m _ (by omega) (by omega)]

theorem prunePass_nil {G : Type} (ops : GeoOps G) (aoi : G) :
    prunePass ops aoi [] = [] := rfl

theorem prunePass_cons {G : Type} (ops : GeoOps G) (aoi : G)
    (x : ImgItem G) (rest : List (ImgItem G)) :
    prunePass ops aoi (x :: rest) =
      (if (scanPair ops aoi x rest).1 then
        x :: prunePass ops aoi (scanPair ops aoi x rest).2
      else
        prunePass ops aoi (scanPair ops aoi x rest).2) := by
  have hsub := (scanPair_snd_sublist ops aoi x rest).length_le
  have h : pruneGo ops aoi rest.length (scanPair ops aoi x rest).2 =
      prunePass ops aoi (scanPair ops aoi x rest).2 :=
    pruneGo_congr ops aoi rest.length (scanPair ops aoi x rest).2.length _
      hsub le_rfl
  simp only [prunePass, List.length_cons, pruneGo, h]

theorem prunePass_sublist {G : Type} (ops : GeoOps G) (aoi : G)
    (l : List (ImgItem G)) : (prunePass ops aoi l).Sublist l := by
  have H : ∀ (n : ℕ) (l : List (ImgItem G)), l.length ≤ n →
      (prunePass ops aoi l).Sublist l := by
    intro n
    induction n with
    | zero =>
      intro l hl
      rw [List.length_eq_zero.mp (Nat.le_zero.mp hl)]
      simp [prunePass_nil]
    | succ n ih =>
      intro l hl
      cases l with
      | nil => simp [prunePass_nil]
      | cons x rest =>
        rw [prunePass_cons]
        have hsub := scanPair_snd_sublist ops aoi x rest
        have hlen : (scanPair ops aoi x rest).2.length ≤ n := by
          have := hsub.length_le
          simp only [List.length_cons] at hl
          omega
        have hrec := ih (scanPair ops aoi x rest).2 hlen
        split
        · exact (hrec.trans hsub).cons₂ x
        · exact (hrec.trans hsub).cons x
  exact H l.length l le_rfl

theorem prunePass_pairwise {G : Type} (ops : GeoOps G) (aoi : G)
    (l : List (ImgItem G)) :
    (prunePass ops aoi l).Pairwise
      (fun a b => pairDecision ops aoi a b = .keepBoth) := by
  have H : ∀ (n : ℕ) (l : List (ImgItem G)), l.length ≤ n →
      (prunePass ops aoi l).Pairwise
        (fun a b => pairDecision ops aoi a b = .keepBoth) := by
    intro n
    induction n with
    | zero =>
      intro l hl
      rw [List.length_eq_zero.mp (Nat.le_zero.mp hl)]
      simp [prunePass_nil]
    | succ n ih =>
      intro l hl
      cases l with
      | nil => simp [prunePass_nil]
      | cons x rest =>
        rw [prunePass_cons]
        have hsub := scanPair_snd_sublist ops aoi x rest
        have hlen : (scanPair ops aoi x rest).2.length ≤ n := by
          have := hsub.length_le
          simp only [List.length_cons] at hl
          omega
        have hrec := ih (scanPair ops aoi x rest).2 hlen
        split
        · rename_i hscan
          refine List.Pairwise.cons ?_ hrec
          intro b hb
          exact scanPair_true_keepBoth ops aoi x rest hscan b
            ((prunePass_sublist ops aoi _).subset hb)
        · exact hrec
  exact H l.length l le_rfl

theorem prunePass_of_pairwise {G : Type} (ops : GeoOps G) (aoi : G)
    (l : List (ImgItem G))
    (h : l.Pairwise (fun a b => pairDecision ops aoi a b = .keepBoth)) :
    prunePass ops aoi l = l := by
  induction l with
  | nil => simp [prunePass_nil]
  | cons x rest ih =>
    rw [prunePass_cons]
    rcases List.pairwise_cons.mp h with ⟨hx, hrest⟩
    have hscan : scanPair ops aoi x rest = (true, rest) :=
      scanPair_of_keepBoth ops aoi x rest hx
    simp [hscan, ih hrest]

theorem zipItems_map_self {G : Type} (l : List (ImgItem G)) :
    zipItems (l.map (·.geom)) (l.map (·.name)) (l.map (·.weight)) = l := by
  induction l with
  | nil => rfl
  | cons x xs ih => simpa [zipItems] using ih

/-- The pruning pass is idempotent at the item level. -/
theorem prunePass_idem {G : Type} (ops : GeoOps G) (aoi : G)
    (l : List (ImgItem G)) :
    prunePass ops aoi (prunePass ops aoi l) = prunePass ops aoi l :=
  prunePass_of_pairwise ops aoi _ (prunePass_pairwise ops aoi l)

theorem mem_insertSorted {A : Type} (le : A → A → Bool) (x : A)
    (l : List A) (a : A) : a ∈ insertSorted le x l ↔ a = x ∨ a ∈ l := by
  induction l with
  | nil => simp [insertSorted]
  | cons y ys ih =>
    simp only [insertSorted]
    split
    · simp only [List.mem_cons, ih]
      tauto
    · simp only [List.mem_cons]

theorem mem_stableSort {A : Type} (le : A → A → Bool) (l : List A)
    (a : A) (h : a ∈ stableSort le l) : a ∈ l := by
  have H : ∀ (l acc : List A), a ∈ l.foldl (fun acc x => insertSorted le x acc) acc →
      a ∈ acc ∨ a ∈ l := by
    intro l
    induction l with
    | nil => intro acc h; exact Or.inl h
    | cons x xs ih =>
      intro acc h
      rcases ih _ h with h' | h'
      · rcases (mem_insertSorted le x acc a).mp h' with h'' | h''
        · exact Or.inr (by simp [h''])
        · exact Or.inl h''
      · exact Or.inr (List.mem_cons_of_mem x h')
  rcases H l [] h with h' | h'
  · simp at h'
  · exact h'

theorem passACentral_complementary_nonempty (ctx : GeoCtx)
    (centrals complements : List ImgMeta) (max_days : ℤ) :
    ∀ g ∈ passACentral ctx centrals complements max_days,
      g.complementary_images ≠ [] := by
  unfold passACentral
  have H : ∀ (l : List ImgMeta) (st : List String × List MosaicGroup),
      (∀ g ∈ st.2, g.complementary_images ≠ []) →
      ∀ g ∈ (l.foldl
        (fun st c =>
          if st.1.contains c.filename then st
          else
            let cands := stableSort (fun a b => decide (sortKey b ≤ sortKey a))
              ((centrals ++ complements).filter fun i =>
                !(decide (i.filename = c.filename)))
            let mg := growMosaic ctx max_days (initGroup c) c cands
            if mg.complementary_images.isEmpty then st
            else (st.1 ++ [c.filename], st.2 ++ [mg])) st).2,
        g.complementary_images ≠ [] := by
    intro l
    induction l with
    | nil => intro st h; exact h
    | cons c cs ih =>
      intro st h
      simp only [List.foldl_cons]
      apply ih
      split
      · exact h
      · split
        · exact h
        · rename_i hne
          intro g hg
          rcases List.mem_append.mp hg with h' | h'
          · exact h g h'
          · simp only [List.mem_singleton] at h'
            subst h'
            simpa [List.isEmpty_iff] using hne
  intro g hg
  exact H centrals ([], []) (by simp) g hg

theorem passBComplement_complementary_nonempty (ctx : GeoCtx)
    (complements : List ImgMeta) (max_days : ℤ) :
    ∀ g ∈ passBComplement ctx complements max_days,
      g.complementary_images ≠ [] := by
  unfold passBComplement
  have H : ∀ (l : List (ℤ × List ImgMeta)) (out : List MosaicGroup),
      (∀ g ∈ out, g.complementary_images ≠ []) →
      ∀ g ∈ (l.foldl
        (fun out p =>
          if p.2.length < 2 then out
          else
            match stableSort (fun a b => decide (sortKey b ≤ sortKey a)) p.2 with
            | [] => out
            | b :: rest =>
              let mg := growMosaic ctx max_days (initGroup b) b rest
              if mg.complementary_images.isEmpty then out
              else out ++ [mg]) out),
        g.complementary_images ≠ [] := by
    intro l
    induction l with
    | nil => intro out h; exact h
    | cons p ps ih =>
      intro out h
      simp only [List.foldl_cons]
      apply ih
      split
      · exact h
      · split
        · exact h
        · split
          · exact h
          · rename_i hne
            intro g hg
            rcases List.mem_append.mp hg with h' | h'
            · exact h g h'
            · simp only [List.mem_singleton] at h'
              subst h'
              simpa [List.isEmpty_iff] using hne
  intro g hg
  exact H _ [] (by simp) g hg

theorem collectGeoms_eq_nil {G : Type} (ops : GeoOps G)
    (lookup : String → Option G) (catalog : List (String × ℚ))
    (images : List String) (h : ∀ nm ∈ images, lookup nm = none) :
    collectGeoms ops lookup catalog images = [] := by
  unfold collectGeoms
  induction images with
  | nil => rfl
  | cons nm rest ih =>
    simp only [List.filterMap_cons, h nm (List.mem_cons_self nm rest)]
    exact ih fun x hx => h x (List.mem_cons_of_mem nm hx)

theorem cell_aoiClips_subset (aoi : Finset ℕ) (geoms : List (Finset ℕ)) :
    ∀ x ∈ aoiClips cellOps aoi geoms, x ⊆ aoi := by
  intro x hx
  simp only [aoiClips, List.mem_filterMap] at hx
  obtain ⟨g, _, hx⟩ := hx
  by_cases h : cellOps.isEmpty (cellOps.inter g aoi) = true
  · simp [h] at hx
  · have : cellOps.inter g aoi = x := by simpa [h] using hx
    rw [← this]
    exact Finset.inter_subset_right

theorem cell_unionAll_subset (aoi : Finset ℕ) (l : List (Finset ℕ))
    (h : ∀ x ∈ l, x ⊆ aoi) : unionAll cellOps l ⊆ aoi := by
  unfold unionAll
  have H : ∀ (l : List (Finset ℕ)) (acc : Finset ℕ), acc ⊆ aoi →
      (∀ x ∈ l, x ⊆ aoi) → l.foldl cellOps.union acc ⊆ aoi := by
    intro l
    induction l with
    | nil => intro acc hacc _; exact hacc
    | cons x xs ih =>
      intro acc hacc hl
      simp only [List.foldl_cons]
      exact ih _ (Finset.union_subset hacc (hl x (List.mem_cons_self x xs)))
        fun z hz => hl z (List.mem_cons_of_mem x hz)
  exact H l ∅ (Finset.empty_subset aoi) h

theorem sum_comb {A : Type} (l : List A) (f g h : A → ℚ) (a c : ℚ) :
    (l.map f).sum - a * (l.map g).sum - c * (l.map h).sum
      = (l.map fun i => f i - a * g i - c * h i).sum := by
  induction l with
  | nil => simp
  | cons x xs ih =>
    simp only [List.map_cons, List.sum_cons, ← ih]
    ring

theorem cell_realArea_nonneg (u : Finset ℕ) :
    0 ≤ (if cellOps.isEmpty u then (0 : ℚ) else cellOps.area u) := by
  split
  · exact le_refl 0
  · simp [cellOps]

theorem cell_realArea_le (aoi : Finset ℕ) (geoms : List (Finset ℕ)) :
    (if cellOps.isEmpty (unionAll cellOps (aoiClips cellOps aoi geoms))
      then (0 : ℚ)
      else cellOps.area (unionAll cellOps (aoiClips cellOps aoi geoms)))
      ≤ cellOps.area aoi := by
  have hsub : unionAll cellOps (aoiClips cellOps aoi geoms) ⊆ aoi :=
    cell_unionAll_subset aoi _ (cell_aoiClips_subset aoi geoms)
  split
  · simp [cellOps]
  · simp only [cellOps]
    exact_mod_cast Finset.card_le_card hsub

/-! ## Claim theorems -/

section RatKernelEval

attribute [local semireducible] Rat.mul Rat.inv Rat.add Rat.sub

/-- C3 (counterexample): on two concrete mosaics with quality factors
0.5 and 1.0 and max clouds 0.1 and 0, both selected, the maximized
objective is `1·1 + 0·1 − 0.4·2 − 0.8·0.1 = 3/25`; it differs from the
claim's primary-variant value `Σ A_j·Q_j − 3.7·Σ N_j = 13/100`, from
its alternative-variant value `13/100 − 0.4·2 = −67/100`, and from the
value `1·(1/2) + 0·1 − 0.4·2 − 0.8·0.1 = −19/50` that would result if
each group's own quality factor were used with the code's constants. -/
theorem claim_C3_counterexample :
    milpObjective c3catalog c3groups c3y = 3/25 ∧
    ¬ milpObjective c3catalog c3groups c3y = 13/100 ∧
    ¬ milpObjective c3catalog c3groups c3y = -67/100 ∧
    ¬ milpObjective c3catalog c3groups c3y = -19/50 := by decide

/-- C3 (as amended): the objective maximized by the model equals
`Σ_j (A_j · Q_stale − α − γ·N_j) · y_j` with `α = 0.4` and `γ = 0.8`,
where the cardinality penalty is always present and `Q_stale` is the
quality factor of the *last* listed group (the stale loop variable read
by the objective's generator expression), not of group `j`. -/
theorem claim_C3_theorem (catalog : List CatalogImg) (gs : List MGroup)
    (y : Fin gs.length → Bool) :
    milpObjective catalog gs y =
      ((List.finRange gs.length).map fun j =>
        (calculate_group_coverage (gs.get j) * lastQuality gs - milpAlpha
          - milpGamma * groupMaxCloud catalog (gs.get j)) * indicator (y j)).sum := by
  unfold milpObjective total_coverage_quality penalty_num_groups
    penalty_cloud_coverage
  rw [sum_comb]
  refine congrArg List.sum (List.map_congr_left ?_)
  intro j _
  ring

/-- C4 (counterexample): a mosaic of exactly two images with identical
footprints (clouds 0.1 and 0.3) is not pruned at all — the area engine
keeps both images, not just the lower-cloud one. -/
theorem claim_C4_counterexample :
    c4out.images = ["a", "b"] ∧ ¬ c4out.images = ["a"] ∧
    c4out.selected_by_overlap = none := by decide

/-- C4 (as amended): on a mosaic with exactly two footprints the
redundancy pruning is a no-op (it applies only from three footprints
up), so both images are kept whatever their geometries and weights. -/
theorem claim_C4_theorem {G : Type} (ops : GeoOps G) (g1 g2 : G)
    (n1 n2 : String) (aoi : G) (w1 w2 : ℚ × ℚ) :
    filter_high_overlap_images ops [g1, g2] [n1, n2] aoi [w1, w2]
      = ([g1, g2], [n1, n2], [w1, w2]) := by
  simp [filter_high_overlap_images]

/-- C6 (counterexample): a raster with one valid cell inside the AOI
and one nodata cell outside it; the code computes
`valid_pixels_percentage = 1/2` (non-masked cells over the whole
raster), while the claim's AOI-restricted `> 0` fraction is `1`, and
`effective_coverage` follows the code's value. -/
theorem claim_C6_counterexample :
    c6metrics.valid_pixels_percentage = 1/2 ∧
    claimedValidPixels c6band [true, false] = 1 ∧
    ¬ ((1 : ℚ)/2 = 1) ∧
    c6metrics.geographic_coverage = 1 ∧
    c6metrics.effective_coverage = 1/2 := by decide

/-- C6 (as amended): `valid_pixels_percentage` is the fraction of
cells of the whole raster grid that are not nodata-masked (no AOI
restriction, no `> 0` comparison on sample values), 0 for an empty
grid; `effective_coverage` is `geographic_coverage` times that
value. -/
theorem claim_C6_theorem (aoi imgPoly : Finset ℕ) (aoiAreaWGS : ℚ)
    (band : List (Option ℚ)) :
    (calculate_coverage_metrics aoi imgPoly aoiAreaWGS band).valid_pixels_percentage
      = (if 0 < band.length
          then ((band.countP (·.isSome) : ℕ) : ℚ) / (band.length : ℚ) else 0) ∧
    (calculate_coverage_metrics aoi imgPoly aoiAreaWGS band).effective_coverage
      = (calculate_coverage_metrics aoi imgPoly aoiAreaWGS band).geographic_coverage
        * (calculate_coverage_metrics aoi imgPoly aoiAreaWGS band).valid_pixels_percentage :=
  ⟨rfl, rfl⟩

/-- C7 (confirmed): the redundancy pruning is idempotent — running
`filter_high_overlap_images` on its own output (same AOI) returns the
output unchanged, in the same order.  Surviving pairs were all examined
with outcome keep-both, and every pair decision is a pure function of
the two geometries, the AOI and the weights, so a second pass removes
nothing. -/
theorem claim_C7_theorem {G : Type} (ops : GeoOps G) (geoms : List G)
    (names : List String) (aoi : G) (weights : List (ℚ × ℚ)) :
    filter_high_overlap_images ops
      (filter_high_overlap_images ops geoms names aoi weights).1
      (filter_high_overlap_images ops geoms names aoi weights).2.1 aoi
      (filter_high_overlap_images ops geoms names aoi weights).2.2
      = filter_high_overlap_images ops geoms names aoi weights := by
  unfold filter_high_overlap_images
  by_cases h : geoms.length < 3
  · rw [if_pos h, if_pos h]
  · rw [if_neg h]
    dsimp only
    by_cases h2 :
        ((prunePass ops aoi (zipItems geoms names weights)).map (·.geom)).length < 3
    · rw [if_pos h2]
    · rw [if_neg h2, zipItems_map_self, prunePass_idem]

/-- C9 (counterexample): two otherwise fully compatible tiles whose
dates are 22 hours apart (`base` earlier).  The claim's truncated
absolute day difference is `79200 / 86400 = 0`, not above any
`max_days ≥ 0`, yet the code rejects the pair for `max_days = 0`
(Python's `timedelta.days` floors `−22h` to `−1` before `abs`); the
same pair is accepted at `max_days = 1`, so the rejection is the
temporal test's. -/
theorem claim_C9_counterexample :
    calculate_compatibility_mosaics idCtx c9base c9other 0 = none ∧
    (calculate_compatibility_mosaics idCtx c9base c9other 1).isSome = true ∧
    |(0 : ℤ) - 79200| / 86400 = 0 ∧
    daysDiff 0 79200 = 1 := by decide

/-- C9 (as amended): the temporal test rejects exactly when a date is
missing or `|floor((base − other)/86400)| > max_days` — the absolute
value is applied after Python's flooring `timedelta.days`, so two
instants 22 hours apart count as 1 day when `base` precedes `other`
and as 0 days when `base` follows it.  Failing the gate forces a
`none` result. -/
theorem claim_C9_theorem :
    (∀ (ctx : GeoCtx) (b o : ImgMeta) (md : ℤ),
      temporalOK b.date o.date md = false →
      calculate_compatibility_mosaics ctx b o md = none) ∧
    daysDiff 0 79200 = 1 ∧ daysDiff 79200 0 = 0 := by
  refine ⟨?_, by decide, by decide⟩
  intro ctx b o md h
  unfold calculate_compatibility_mosaics
  cases hb : b.date with
  | none => rfl
  | some bd =>
    cases ho : o.date with
    | none => rfl
    | some od =>
      have hlt : md < daysDiff bd od := by
        by_contra hle
        simp [temporalOK, hb, ho, not_lt.mp hle] at h
      simp [hlt]

/-- C9 (witness): the amended theorem applied to the concrete 22-hour
pair at `max_days = 0`. -/
theorem claim_C9_witness :
    temporalOK c9base.date c9other.date 0 = false ∧
    calculate_compatibility_mosaics idCtx c9base c9other 0 = none :=
  ⟨by decide, claim_C9_theorem.1 idCtx c9base c9other 0 (by decide)⟩

/-- C10 (confirmed): the area engine emits one output group per input
group; a group none of whose images yields a footprint gains exactly
`geometric_coverage = 0` and `avg_cloud_coverage = 1` and none of
`pie_coverage_ratio`, `real_coverage_ratio`, `total_individual_area`,
`total_pairwise_overlap`, `pairwise_intersections`; and the error
handler of the per-group computation produces the same reduced field
set (with `geometric_coverage_m2 = 0` additionally set, which is not
among the five listed enrichment fields). -/
theorem claim_C10_theorem {G : Type} (ops : GeoOps G) (aoi : G)
    (lookup : String → Option G) (catalog : List (String × ℚ)) :
    (∀ groups, (calculate_coverage_twotwo ops aoi lookup catalog groups).length
      = groups.length) ∧
    (∀ g : GroupIn, (∀ nm ∈ g.images, lookup nm = none) →
      processGroup ops aoi lookup catalog g =
        { unenrichedGroup g with
            geometric_coverage := some 0, avg_cloud_coverage := some 1 }) ∧
    (∀ g : GroupIn,
      (errorFallbackFields (unenrichedGroup g)).images = g.images ∧
      (errorFallbackFields (unenrichedGroup g)).geometric_coverage = some 0 ∧
      (errorFallbackFields (unenrichedGroup g)).avg_cloud_coverage = some 1 ∧
      (errorFallbackFields (unenrichedGroup g)).geometric_coverage_m2 = some 0 ∧
      (errorFallbackFields (unenrichedGroup g)).pie_coverage_ratio = none ∧
      (errorFallbackFields (unenrichedGroup g)).real_coverage_ratio = none ∧
      (errorFallbackFields (unenrichedGroup g)).total_individual_area = none ∧
      (errorFallbackFields (unenrichedGroup g)).total_pairwise_overlap = none ∧
      (errorFallbackFields (unenrichedGroup g)).pairwise_intersections = none) := by
  refine ⟨fun groups => by simp [calculate_coverage_twotwo], ?_,
    fun g => ⟨rfl, rfl, rfl, rfl, rfl, rfl, rfl, rfl, rfl⟩⟩
  intro g h
  have hc := collectGeoms_eq_nil ops lookup catalog g.images h
  simp [processGroup, hc, unenrichedGroup]

/-- C10 (witness): the theorem applied to a concrete group whose only
image has no footprint. -/
theorem claim_C10_witness :
    processGroup cellOps (∅ : Finset ℕ) (fun _ => none) []
        ⟨"g", ["x"]⟩ =
      { unenrichedGroup ⟨"g", ["x"]⟩ with
          geometric_coverage := some 0, avg_cloud_coverage := some 1 } :=
  (claim_C10_theorem cellOps ∅ (fun _ => none) []).2.1 ⟨"g", ["x"]⟩
    (by intro nm _; rfl)

/-- C1 (counterexample): four footprints over a 13-cell AOI sharing a
9-cell core, each with one private cell.  Every pair overlaps exactly
90% of the smaller footprint, so pruning keeps all four; then
`Σ_single − Σ_pair = 40 − 54 = −14` gives
`pie_coverage_ratio = −14/13 < 0` while `real_coverage_ratio = 1`, so
both `0 ≤ pie_coverage_ratio` and
`real_coverage_ratio ≤ pie_coverage_ratio + 1e-9` fail. -/
theorem claim_C1_counterexample :
    c1out.pie_coverage_ratio = some (-14/13) ∧
    c1out.real_coverage_ratio = some 1 ∧
    ¬ (0 ≤ (-14/13 : ℚ)) ∧
    ¬ ((1 : ℚ) ≤ -14/13 + 1/1000000000) ∧
    c1out.images = ["a", "b", "c", "d"] := by decide

/-- C1 (as amended): in the cell-set geometry model, for every group
processed over an AOI of positive area, the recorded
`real_coverage_ratio` lies in `[0, 1]` and the recorded
`pie_coverage_ratio` is at most 1 (the AOI-area cap); the lower bound
`0 ≤ pie_coverage_ratio` and the bound `real ≤ pie + 1e-9` do not hold
in general. -/
theorem claim_C1_theorem (aoi : Finset ℕ)
    (lookup : String → Option (Finset ℕ)) (catalog : List (String × ℚ))
    (g : GroupIn) (haoi : 0 < cellOps.area aoi) :
    (∀ r, (processGroup cellOps aoi lookup catalog g).real_coverage_ratio
      = some r → 0 ≤ r ∧ r ≤ 1) ∧
    (∀ p, (processGroup cellOps aoi lookup catalog g).pie_coverage_ratio
      = some p → p ≤ 1) := by
  unfold processGroup
  by_cases hemp :
      ((collectGeoms cellOps lookup catalog g.images).map (·.1)).isEmpty
  · rw [if_pos hemp]
    exact ⟨fun r hr => by simp at hr, fun p hp => by simp at hp⟩
  · rw [if_neg hemp]
    dsimp only
    constructor
    · intro r hr
      rw [Option.some_inj] at hr
      subst hr
      rw [if_pos haoi]
      exact ⟨div_nonneg (cell_realArea_nonneg _) (le_of_lt haoi),
        (div_le_one haoi).mpr (cell_realArea_le aoi _)⟩
    · intro p hp
      rw [Option.some_inj] at hp
      subst hp
      exact (div_le_one haoi).mpr (min_le_right _ _)

/-- C1 (witness): the amended theorem applied to the concrete AOI and
mosaic of the counterexample (`pie_coverage_ratio = −14/13 ≤ 1`). -/
theorem claim_C1_witness :
    0 < cellOps.area c1aoi ∧
    (∀ p, c1out.pie_coverage_ratio = some p → p ≤ 1) :=
  ⟨by decide,
    (claim_C1_theorem c1aoi c1lookup c1catalog ⟨"g1", ["a", "b", "c", "d"]⟩
      (by decide)).2⟩

/-- C2 (counterexample): seven mutually tile-disjoint mosaics, each of
coverage 0.9, quality 1 and cloud 0 (objective contribution
`0.9 − 0.4 = 0.5` each).  Selecting all seven is feasible in the model
— there is no cardinality constraint — so it is false that every
feasible selection has at most 6 mosaics. -/
theorem claim_C2_counterexample :
    milpFeasible c2catalog c2groups c2yAll = true ∧
    numSelected c2groups c2yAll = 7 := by decide

set_option maxRecDepth 8000 in
/-- C2 (as amended): the model built by `solve_mosaic_selection_milp`
has no cardinality constraint; on the seven disjoint candidates of
contribution 0.5 each, selecting all seven is feasible and is the
unique objective maximum, so the selector returns 7 mosaics, not 6. -/
theorem claim_C2_theorem :
    milpFeasible c2catalog c2groups c2yAll = true ∧
    numSelected c2groups c2yAll = 7 ∧
    (∀ y : Fin c2groups.length → Bool,
      milpFeasible c2catalog c2groups y = true →
      milpObjective c2catalog c2groups y ≤ milpObjective c2catalog c2groups c2yAll ∧
      (y ≠ c2yAll →
        milpObjective c2catalog c2groups y < milpObjective c2catalog c2groups c2yAll)) := by
  decide

/-- C5 (counterexample): two compatible central tiles and no
complement-classified tile anywhere.  Pass A keeps both central-seeded
groups (each added the other central), so mosaics are kept without any
complement having been added. -/
theorem claim_C5_counterexample :
    c5result.length = 2 ∧
    (c5result.all fun g =>
      g.complementary_images.all fun im => decide (im.cls = some "central"))
      = true := by decide

/-- C5 (as amended): a grown mosaic is kept iff at least one image of
*any* classification was added — every emitted group has a nonempty
added-image list — and on an input with a single central tile and no
complements the composer produces no mosaic groups at all. -/
theorem claim_C5_theorem :
    (∀ (ctx : GeoCtx) (centrals complements : List ImgMeta) (md : ℤ),
      ∀ g ∈ heuristica_gulosa ctx centrals complements md,
        g.complementary_images ≠ []) ∧
    (∀ (ctx : GeoCtx) (c : ImgMeta) (md : ℤ),
      heuristica_gulosa ctx [c] [] md = []) := by
  constructor
  · intro ctx centrals complements md g hg
    have hg2 := mem_stableSort _ _ _ hg
    rcases List.mem_append.mp hg2 with h | h
    · exact passACentral_complementary_nonempty ctx centrals complements md g h
    · exact passBComplement_complementary_nonempty ctx complements md g h
  · intro ctx c md
    have hA : passACentral ctx [c] [] md = [] := by
      simp [passACentral, growMosaic, initGroup, stableSort, List.filter]
    have hB : passBComplement ctx [] md = [] := rfl
    simp [heuristica_gulosa, hA, hB, stableSort]

/-- C5 (witness): the amended theorem applied to the first group the
composer produces on the two-central instance. -/
theorem claim_C5_witness : c5g0.complementary_images ≠ [] :=
  claim_C5_theorem.1 idCtx [c5tileA, c5tileB] [] 5 c5g0 (by decide)

/-- C8 (counterexample): overlapping tiles without cloud-mask paths
(the probe is never attempted, both cloud-in-overlap values keep the
1.0 fallback) still get a designated better tile, `base`; and when
both probes succeed with equal values the code also designates `base`
although neither value is strictly lower. -/
theorem claim_C8_counterexample :
    ((calculate_compatibility_mosaics idCtx c8base c8other 5).map fun r =>
      (r.overlap_details.cloud_overlap_base,
        r.overlap_details.cloud_overlap_other,
        r.overlap_details.better_img_in_overlap))
      = some (1, 1, some Side.base) ∧
    cloudOverlapInfo c8ctxTie c8baseTie c8otherTie (some ⟨0, 0, 1, 1⟩)
      = (1/2, 1/2, some Side.base) := by decide

/-- C8 (as amended): a better-in-overlap tile is designated exactly
when the overlap geometry has positive area — regardless of whether
the cloud probes were attempted or fell back to 1.0 — and it is `base`
iff its cloud-in-overlap is ≤ the other's (ties to `base`); with no
positive-area overlap both values are 1.0, no tile is designated, and
the overlap quality then falls back to the mean of the two global
qualities. -/
theorem claim_C8_theorem (ctx : GeoCtx) (b o : ImgMeta)
    (og : Option BBoxQ) :
    (∀ r, og = some r → 0 < boxArea r →
      (cloudOverlapInfo ctx b o og).2.2 =
        some (if (cloudOverlapInfo ctx b o og).1 ≤ (cloudOverlapInfo ctx b o og).2.1
          then Side.base else Side.other)) ∧
    ((cloudOverlapInfo ctx b o og).2.2 = some Side.base →
      (cloudOverlapInfo ctx b o og).1 ≤ (cloudOverlapInfo ctx b o og).2.1) ∧
    ((cloudOverlapInfo ctx b o og).2.2 = some Side.other →
      (cloudOverlapInfo ctx b o og).2.1 < (cloudOverlapInfo ctx b o og).1) ∧
    (og = none → cloudOverlapInfo ctx b o og = (1, 1, none)) ∧
    (∀ r, og = some r → boxArea r ≤ 0 →
      cloudOverlapInfo ctx b o og = (1, 1, none)) ∧
    (∀ cb co qb qo vb vo : ℚ,
      qualityOverlap none cb co qb qo vb vo = (qb + qo) / 2) := by
  cases og with
  | none =>
    refine ⟨fun r hr => (by cases hr), ?_, ?_, fun _ => rfl,
      fun r hr => (by cases hr), fun _ _ _ _ _ _ => rfl⟩
    · intro h
      simp [cloudOverlapInfo] at h
    · intro h
      simp [cloudOverlapInfo] at h
  | some r =>
    by_cases hr : 0 < boxArea r
    · have key : cloudOverlapInfo ctx b o (some r) =
          (probeValue ctx b.cloud_mask_path r, probeValue ctx o.cloud_mask_path r,
            some (if probeValue ctx b.cloud_mask_path r ≤
                probeValue ctx o.cloud_mask_path r
              then Side.base else Side.other)) := by
        simp [cloudOverlapInfo, hr]
      rw [key]
      refine ⟨fun r2 hr2 _ => rfl, ?_, ?_, fun h => (by cases h), ?_,
        fun _ _ _ _ _ _ => rfl⟩
      · intro h
        rw [Option.some_inj] at h
        by_contra hc
        simp only [if_neg hc] at h
        cases h
      · intro h
        rw [Option.some_inj] at h
        by_cases hc : probeValue ctx b.cloud_mask_path r ≤
            probeValue ctx o.cloud_mask_path r
        · simp only [if_pos hc] at h
          cases h
        · exact not_le.mp hc
      · intro r2 hr2 hle
        rw [← Option.some_inj.mp hr2] at hle
        exact absurd hr (not_lt.mpr hle)
    · have key2 : cloudOverlapInfo ctx b o (some r) = (1, 1, none) := by
        simp [cloudOverlapInfo, hr]
      rw [key2]
      refine ⟨?_, fun h => (by cases h), fun h => (by cases h),
        fun _ => rfl, fun _ _ _ => rfl, fun _ _ _ _ _ _ => rfl⟩
      intro r2 hr2 hpos
      rw [← Option.some_inj.mp hr2] at hpos
      exact absurd hpos hr

/-- C8 (witness): the amended theorem applied to a concrete
positive-area overlap of the two pathless tiles. -/
theorem claim_C8_witness :
    (0 : ℚ) < boxArea ⟨0, 0, 1, 1⟩ ∧
    (cloudOverlapInfo idCtx c8base c8other (some ⟨0, 0, 1, 1⟩)).2.2 =
      some (if (cloudOverlapInfo idCtx c8base c8other (some ⟨0, 0, 1, 1⟩)).1 ≤
          (cloudOverlapInfo idCtx c8base c8other (some ⟨0, 0, 1, 1⟩)).2.1
        then Side.base else Side.other) :=
  ⟨by decide,
    (claim_C8_theorem idCtx c8base c8other (some ⟨0, 0, 1, 1⟩)).1
      ⟨0, 0, 1, 1⟩ rfl (by decide)⟩

end RatKernelEval

end S2Mosaic
